import Mathlib

/-!
Verification of the `typst-tyipa` build-time generators.

The repository contains two Python scripts:

* `util/make-sym-dict.py` — scans `src/sym.typ` line by line with three fixed
  regular expressions and serializes the recovered symbol mapping;
* `util/make-diacritics.py` — reads a CSV of diacritic records and emits a
  Typst source file of accenting functions plus a manual listing.

Strings are modelled as `List Char` (`chars` converts a Lean string literal).
Lines of text are modelled without their trailing newline, matching the fact
that Python's `$` anchor in `re.match` matches just before a trailing
newline.  Python `dict` assignment is modelled by `pyInsert` on association
lists (update-in-place for an existing key, append for a new one), which is
exactly CPython's insertion-order semantics.
-/

namespace TyIPA

/-- Character list of a string literal (all text is modelled as `List Char`). -/
def chars (s : String) : List Char := s.data

/-- `str(n)` for a natural number. -/
def natChars (n : Nat) : List Char := chars (Nat.repr n)

/-! ### `util/make-sym-dict.py`: the structural scanner

The three regular expressions of the script (lines 11–13) are deterministic
on every input: each greedy character-class repetition is followed by a
character outside the class, so the direct functional translation below has
exactly the backtracking regex's semantics.
-/

/-- Python's `\s` / `\S` character class (Unicode whitespace, as used by `re`). -/
def isPySpace (c : Char) : Bool :=
  c.toNat ∈ [9, 10, 11, 12, 13, 28, 29, 30, 31, 32, 0x85, 0xa0, 0x1680,
      0x2028, 0x2029, 0x202f, 0x205f, 0x3000]
    || (0x2000 ≤ c.toNat && c.toNat ≤ 0x200a)

/-- The `[\t ]` character class used throughout the three patterns. -/
def isST (c : Char) : Bool := c = '\t' || c = ' '

/-- Consume `[\t ]*`. -/
def dropST (l : List Char) : List Char := l.dropWhile isST

/-- Consume a literal piece of a pattern, or fail. -/
def expectLit (pat : List Char) (l : List Char) : Option (List Char) :=
  if pat.isPrefixOf l then some (l.drop pat.length) else Option.none

/-- The `[a-zA-Z\-]` class of `sym_def_pattern`'s capture group. -/
def isDefNameChar (c : Char) : Bool :=
  ('a' ≤ c && c ≤ 'z') || ('A' ≤ c && c ≤ 'Z') || c = '-'

/-- The `[a-zA-Z\-\.]` class of `sym_secondary_pattern`'s first capture group. -/
def isSecNameChar (c : Char) : Bool := isDefNameChar c || c = '.'

/-- The `(?://.*)*$` tail: the remainder must be empty or a `//` comment. -/
def tailOk (l : List Char) : Bool := l.isEmpty || (chars "//").isPrefixOf l

/-- `sym_def_pattern`:
`^[\t ]*#let[\t ]+([a-zA-Z\-]+)[\t ]*=[\t ]*symbol\([\t ]*(?://.*)*$`,
returning the captured symbol name. -/
def sym_def_match (l : List Char) : Option (List Char) := do
  let r1 ← expectLit (chars "#let") (dropST l)
  let sp := r1.takeWhile isST
  if sp.isEmpty then failure else
  let r2 := r1.dropWhile isST
  let name := r2.takeWhile isDefNameChar
  if name.isEmpty then failure else
  let r3 := dropST (r2.dropWhile isDefNameChar)
  let r4 ← expectLit (chars "=") r3
  let r5 ← expectLit (chars "symbol(") (dropST r4)
  if tailOk (dropST r5) then pure name else failure

/-- `sym_primary_pattern`: `^[\t ]*"(\S)"[\t ]*,[\t ]*(?://.*)*$`,
returning the captured character. -/
def sym_primary_match (l : List Char) : Option Char := do
  let r1 ← expectLit (chars "\"") (dropST l)
  match r1 with
  | [] => failure
  | c :: r2 =>
    if isPySpace c then failure else do
    let r3 ← expectLit (chars "\"") r2
    let r4 ← expectLit (chars ",") (dropST r3)
    if tailOk (dropST r4) then pure c else failure

/-- `sym_secondary_pattern`:
`^[\t ]*\([\t ]*"([a-zA-Z\-\.]+)"[\t ]*,[\t ]*"(\S)"\)[\t ]*,[\t ]*(?://.*)*`
(note: no `$` anchor), returning both captures. -/
def sym_secondary_match (l : List Char) : Option (List Char × Char) := do
  let r1 ← expectLit (chars "(") (dropST l)
  let r2 ← expectLit (chars "\"") (dropST r1)
  let name := r2.takeWhile isSecNameChar
  if name.isEmpty then failure else
  let r3 ← expectLit (chars "\"") (r2.dropWhile isSecNameChar)
  let r4 ← expectLit (chars ",") (dropST r3)
  let r5 ← expectLit (chars "\"") (dropST r4)
  match r5 with
  | [] => failure
  | c :: r6 =>
    if isPySpace c then failure else do
    let r7 ← expectLit (chars "\")") r6
    let _ ← expectLit (chars ",") (dropST r7)
    pure (name, c)

/-- A key of the `symbols` dict: Python `None` (before any definition-start
line has matched) or a string. -/
abbrev PyKey := Option (List Char)

/-- How Python's f-string renders the current symbol name (`None` → `"None"`). -/
def pyShow : Option (List Char) → List Char
  | Option.none => chars "None"
  | some s => s

/-- CPython `dict` assignment `m[k] = v` on an insertion-ordered association
list: an existing key keeps its position and gets the new value, a new key is
appended. -/
def pyInsert : List (PyKey × List Char) → PyKey → List Char → List (PyKey × List Char)
  | [], k, v => [(k, v)]
  | (k', v') :: rest, k, v =>
    if k == k' then (k, v) :: rest else (k', v') :: pyInsert rest k v

/-- The dict write (if any) a single line performs, given the current symbol
(`currentsym`).  The three patterns are tried in the script's order; a
definition-start line writes nothing. -/
def lineWrite (cur : Option (List Char)) (l : List Char) :
    Option (PyKey × List Char) :=
  match sym_def_match l with
  | some _ => Option.none
  | Option.none =>
    match sym_primary_match l with
    | some c => some (cur, [c])
    | Option.none =>
      match sym_secondary_match l with
      | some (n, c) => some (some (pyShow cur ++ chars "." ++ n), [c])
      | Option.none => Option.none

/-- How a line updates `currentsym`. -/
def nextCur (cur : Option (List Char)) (l : List Char) : Option (List Char) :=
  match sym_def_match l with
  | some name => some name
  | Option.none => cur

/-- The scan loop of `make-sym-dict.py` (lines 17–30), carrying `currentsym`
and the `symbols` dict. -/
def scanAux (cur : Option (List Char)) (syms : List (PyKey × List Char)) :
    List (List Char) → List (PyKey × List Char)
  | [] => syms
  | l :: ls =>
    scanAux (nextCur cur l)
      (match lineWrite cur l with
       | some kv => pyInsert syms kv.1 kv.2
       | Option.none => syms) ls

/-- The recovered `symbols` dict for a list of input lines
(`currentsym = None`, `symbols = dict()` initially). -/
def scanSymbols (ls : List (List Char)) : List (PyKey × List Char) :=
  scanAux Option.none [] ls

/-- The raw sequence of dict assignments the scan performs, in order. -/
def writesAux (cur : Option (List Char)) : List (List Char) → List (PyKey × List Char)
  | [] => []
  | l :: ls =>
    (match lineWrite cur l with
     | some kv => [kv]
     | Option.none => []) ++ writesAux (nextCur cur l) ls

/-- All dict assignments performed when scanning `ls` from the initial state. -/
def writes (ls : List (List Char)) : List (PyKey × List Char) := writesAux Option.none ls

/-- One emitted line `  "key": "value",` of the serialized dictionary
(`make-sym-dict.py` lines 48–49); a `None` key is rendered `"None"` by the
f-string. -/
def symDictEntryLine (kv : PyKey × List Char) : List Char :=
  chars "  \"" ++ pyShow kv.1 ++ chars "\": \"" ++ kv.2 ++ chars "\","

/-- The emitted entry lines of the serialized dictionary, in dict order. -/
def symDictEntryLines (syms : List (PyKey × List Char)) : List (List Char) :=
  syms.map symDictEntryLine

/-! Spec-side notions used to characterize the dict semantics. -/

/-- Keys in order of their first occurrence (what the spec calls
"insertion order governed by first-insertion position"). -/
def firstDedup : List PyKey → List PyKey
  | [] => []
  | k :: ks => k :: firstDedup (ks.filter (fun x => !(x == k)))
termination_by l => l.length
decreasing_by
  simp only [List.length_cons]
  exact Nat.lt_succ_of_le (List.length_filter_le _ _)

/-- The value of the last write to key `k` in a write sequence, if any. -/
def lastValue (k : PyKey) : List (PyKey × List Char) → Option (List Char)
  | [] => Option.none
  | kv :: ws =>
    match lastValue k ws with
    | some v => some v
    | Option.none => if k == kv.1 then some kv.2 else Option.none

/-! ### `util/make-diacritics.py`: records and the synthesized function text -/

/-- One row of `src/_diacritics.csv`, with all seven required fields present
as strings (field names follow the CSV column names). -/
structure DiacriticRecord where
  group : List Char
  ipa_name : List Char
  ipa_desc : List Char
  unicode_name : List Char
  unicode_hex : List Char
  tyipa_name : List Char
  tyipa_aliases : List Char

/-- `d["tyipa-aliases"] or "(none)"` for a string value. -/
def alias_display (l : List Char) : List Char :=
  if l.isEmpty then chars "(none)" else l

/-- The branch condition of `gen_accent_func` (line 34):
`d["group"] == "segmentation" and d["tyipa-name"].startswith("tied-")`. -/
def isTiedSegmentation (r : DiacriticRecord) : Bool :=
  r.group == chars "segmentation" && (chars "tied-").isPrefixOf r.tyipa_name

/-- The `FUNC_HEADER` template lines, instantiated with the record's fields
(the `.format(...)` substitution applied to the concrete template). -/
def func_header_lines (ipan ipad unin unih tyn tyad : List Char) : List (List Char) :=
  [chars "/// Apply the \x27" ++ (ipad ++ chars "\x27 diacritic to `base`."),
   chars "/// ",
   chars "/// Adds the following diacritic to `base`:",
   chars "/// / IPA name: " ++ ipan,
   chars "/// / IPA description: " ++ ipad,
   chars "/// / Unicode name: " ++ unin,
   chars "/// / Unicode hex: `0x" ++ (unih ++ chars "`"),
   chars "/// / TyIPA name: " ++ tyn,
   chars "/// / TyIPA alias(es): " ++ tyad,
   chars "/// ",
   chars "/// -> str",
   chars "#let " ++ (tyn ++ chars "("),
   chars "  /// The character(s) to which the diacritic should be added.",
   chars "  /// -> str | symbol",
   chars "  base",
   chars ") = \x7b"]

/-- The tied-segmentation branch lines of `gen_accent_func` (lines 35–44),
instantiated. -/
def tied_body_lines (tyn unih : List Char) : List (List Char) :=
  [chars "  assert(",
   chars "    type(base) == str,",
   chars "    message: \"" ++ (tyn ++ chars "() expects argument of type `str`, `\" + str(type(base)) + \"` given\""),
   chars "  )",
   chars "  let parts = base.split(\"\")",
   chars "  assert(",
   chars "    parts.len() == 4,",
   chars "    message: \"" ++ (tyn ++ chars "() expects argument of length 2, \" + str(parts.len() - 2) + \" given\""),
   chars "  )",
   chars "  parts.at(1) + \"\\u\x7b" ++ (unih ++ chars "\x7d\" + parts.at(2)")]

/-- The type assertion block of the tied-segmentation shape (lines 35–38). -/
def tied_type_assert_block (tyn : List Char) : List (List Char) :=
  [chars "  assert(",
   chars "    type(base) == str,",
   chars "    message: \"" ++ (tyn ++ chars "() expects argument of type `str`, `\" + str(type(base)) + \"` given\""),
   chars "  )"]

/-- The piece-count assertion block of the tied-segmentation shape
(lines 40–43). -/
def tied_len_assert_block (tyn : List Char) : List (List Char) :=
  [chars "  assert(",
   chars "    parts.len() == 4,",
   chars "    message: \"" ++ (tyn ++ chars "() expects argument of length 2, \" + str(parts.len() - 2) + \" given\""),
   chars "  )"]

/-- The default branch lines of `gen_accent_func` (lines 46–50), instantiated. -/
def default_body_lines (unih : List Char) : List (List Char) :=
  [chars "  let modified = ()",
   chars "  for chr in str(base) \x7b",
   chars "    modified.push(chr + \"\\u\x7b" ++ (unih ++ chars "\x7d\")"),
   chars "  \x7d",
   chars "  modified.join(\"\")"]

/-- All lines produced by `gen_accent_func` for a record: header, the branch
selected by `isTiedSegmentation`, the closing `}` and the final `'\n'` list
element (lines 33–52). -/
def gen_accent_func_lines (r : DiacriticRecord) : List (List Char) :=
  func_header_lines r.ipa_name r.ipa_desc r.unicode_name r.unicode_hex
      r.tyipa_name (alias_display r.tyipa_aliases)
    ++ (if isTiedSegmentation r then tied_body_lines r.tyipa_name r.unicode_hex
        else default_body_lines r.unicode_hex)
    ++ [chars "\x7d", chars "\n"]

/-- Python's `"\n".join(...)`. -/
def py_join_nl : List (List Char) → List Char
  | [] => []
  | [l] => l
  | l :: ls => l ++ chars "\n" ++ py_join_nl ls

/-- The full text returned by `gen_accent_func`. -/
def gen_accent_func (r : DiacriticRecord) : List Char :=
  py_join_nl (gen_accent_func_lines r)

/-- The lines produced by `gen_alias` (lines 64–73), instantiated. -/
def gen_alias_lines (orig als : List Char) : List (List Char) :=
  [chars "/// Alias for `" ++ (orig ++ chars "`."),
   chars "#let " ++ (als ++ (chars " = " ++ orig)),
   chars "\n"]

/-- The full text returned by `gen_alias`. -/
def gen_alias (orig als : List Char) : List Char :=
  py_join_nl (gen_alias_lines orig als)

/-- Python `s.split(" ")`: split at every single space, keeping empty pieces
(`"".split(" ") = [""]`). -/
def py_split_space : List Char → List (List Char)
  | [] => [[]]
  | c :: cs =>
    if c = ' ' then [] :: py_split_space cs
    else
      match py_split_space cs with
      | [] => [[c]]
      | p :: ps => (c :: p) :: ps

/-- The aliases the emission loop iterates over (lines 142–143): none when
the field is falsy, otherwise `split(" ")` of the field. -/
def alias_names (r : DiacriticRecord) : List (List Char) :=
  if r.tyipa_aliases.isEmpty then [] else py_split_space r.tyipa_aliases

/-- All lines the code-file loop emits for one record: the function text
followed by the alias texts (lines 141–145), at line granularity. -/
def emit_record_lines (r : DiacriticRecord) : List (List Char) :=
  gen_accent_func_lines r
    ++ (alias_names r).flatMap (fun a => gen_alias_lines r.tyipa_name a)

/-- Recognizes a `#let` binding line (a line whose first five characters are
`#let` and a space). -/
def is_let_line (l : List Char) : Bool := l.take 5 == chars "#let "

/-- Python `str.capitalize` (ASCII case mapping, which covers the group
labels of the CSV). -/
def py_capitalize : List Char → List Char
  | [] => []
  | c :: cs => c.toUpper :: cs.map Char.toLower

/-- Helper for `py_title`: tracks whether the previous character was a letter. -/
def py_title_aux : Bool → List Char → List Char
  | _, [] => []
  | prevAlpha, c :: cs =>
    (if prevAlpha then c.toLower else c.toUpper) :: py_title_aux c.isAlpha cs

/-- Python `str.title` (ASCII approximation: a letter that starts a run of
letters is uppercased, the other letters lowercased). -/
def py_title (l : List Char) : List Char := py_title_aux false l

/-- `gen_section_head` (lines 76–78). -/
def gen_section_head (group : List Char) : List Char :=
  chars "/*** " ++ py_capitalize group ++ chars " diacritics***/\n\n"

/-- `gen_manual_section_head` (lines 81–83). -/
def gen_manual_section_head (group : List Char) : List Char :=
  chars "\n== " ++ py_title group ++ chars "\n\n"

/-- Recognizes a section-heading chunk (first five characters `/*** `). -/
def is_head_chunk (c : List Char) : Bool := c.take 5 == chars "/*** "

/-- The chunks written inside the code-file loop (lines 136–145), carrying
`last_section` exactly as the script does. -/
def code_body (last : List Char) : List DiacriticRecord → List (List Char)
  | [] => []
  | r :: rs =>
    (if r.group ≠ last then [gen_section_head r.group] else [])
      ++ gen_accent_func r
        :: (alias_names r).map (fun a => gen_alias r.tyipa_name a)
      ++ code_body (if r.group ≠ last then r.group else last) rs

/-- The groups for which the loop emits a section heading, in order
(the heading-emission decisions of lines 137–140 and 166–169). -/
def section_head_groups (last : List Char) : List DiacriticRecord → List (List Char)
  | [] => []
  | r :: rs =>
    (if r.group ≠ last then [r.group] else [])
      ++ section_head_groups (if r.group ≠ last then r.group else last) rs

/-- The heading groups the amended claim describes, relative to a phantom
predecessor group `prev`: a record gets a heading exactly when its group
differs from the group of the record immediately before it. -/
def claimed_head_groups_from (prev : List Char) (gs : List (List Char)) : List (List Char) :=
  (gs.zip (prev :: gs)).filterMap
    (fun p => if p.1 ≠ p.2 then some p.1 else Option.none)

/-- The amended claim's heading groups: each record whose group differs from
its predecessor's group gets a heading, the predecessor group of the first
record being the empty string (the initial `last_section = ""`). -/
def claimed_head_groups (gs : List (List Char)) : List (List Char) :=
  claimed_head_groups_from (chars "") gs

/-- The front part of a manual display card: everything `gen_manual_display_code`
(lines 86–111) emits before the optional aliases and notes parts. -/
def manual_card_front (tied : Bool) (tyn ipan ipad unih : List Char) : List Char :=
  let type_sig := if tied then chars "str" else chars "str | symbol"
  let symbol :=
    if tied then chars "ipa.diac." ++ tyn ++ chars "(ipa.sym.placeholder + ipa.sym.placeholder)"
    else chars "ipa.diac." ++ tyn ++ chars "(ipa.sym.placeholder)"
  let code := tyn ++ chars "(base: " ++ type_sig ++ chars ")"
  chars "#display-diac(\n  " ++ symbol ++ chars ",\n  \"" ++ code ++ chars "\",\n  \""
    ++ ipan ++ chars "\",\n  \"" ++ ipad ++ chars "\",\n  escape: \"\\\\u\x7b"
    ++ unih ++ chars "\x7d\",\n"

/-- The `notes` string of `gen_manual_display_code` (line 97). -/
def manual_notes_text (tied : Bool) : List Char :=
  if tied then chars "  note: \"Expects an argument of length exactly 2.\",\n" else []

/-- The `aliases` string of `gen_manual_display_code` (lines 100–101): one
signature built from the whole raw alias field. -/
def manual_aliases_text (tied : Bool) (ta : List Char) : List Char :=
  chars "  aliases: (\"" ++ ta ++ chars "(base: "
    ++ (if tied then chars "str" else chars "str | symbol") ++ chars ")\",),\n"

/-- The manual display card built from rendered field values: `tied` is the
line-93 condition, `aliasesOn` the line-100 truthiness of the alias field. -/
def manual_card (tied aliasesOn : Bool) (tyn ipan ipad unih ta : List Char) : List Char :=
  manual_card_front tied tyn ipan ipad unih
    ++ (if aliasesOn then manual_aliases_text tied ta else [])
    ++ manual_notes_text tied ++ chars ")\n"

/-- `gen_manual_display_code` for a record (lines 86–111). -/
def gen_manual_display_code (r : DiacriticRecord) : List Char :=
  manual_card (isTiedSegmentation r) (!r.tyipa_aliases.isEmpty) r.tyipa_name
    r.ipa_name r.ipa_desc r.unicode_hex r.tyipa_aliases

/-- The chunks written inside the manual-file loop (lines 165–170). -/
def manual_body (last : List Char) : List DiacriticRecord → List (List Char)
  | [] => []
  | r :: rs =>
    (if r.group ≠ last then [gen_manual_section_head r.group] else [])
      ++ gen_manual_display_code r
        :: manual_body (if r.group ≠ last then r.group else last) rs

/-- Every chunk written to the code file in one run (lines 125–145), as a
function of the timestamp text and the records. -/
def code_file_chunks (ts : List Char) (rs : List DiacriticRecord) : List (List Char) :=
  [chars "/// Accenting functions for the diacritics of the IPA.\n",
   chars "/// \n",
   chars "/// This file was auto-generated. Re-run the package\x27s\n",
   chars "/// `./util/make-diacritics.py` script if you have\n",
   chars "/// updated the definitions in `./src/_diacritics.csv`.\n",
   chars "/// \n",
   chars "/// File generated on: "]
    ++ ts
      :: (chars "\n/// Definitions included: " ++ natChars rs.length ++ chars "\n")
      :: chars "\n"
      :: code_body (chars "") rs

/-- Every chunk written to the manual file in one run (lines 151–170). -/
def manual_file_chunks (ts : List Char) (rs : List DiacriticRecord) : List (List Char) :=
  [chars "/// Display listing of tyipa diacritic functions.\n",
   chars "/// \n",
   chars "/// This file was auto-generated. Re-run the package\x27s\n",
   chars "/// `./util/make-diacritics.py` script if you have\n",
   chars "/// updated the definitions in `./src/_diacritics.csv`.\n",
   chars "/// \n",
   chars "/// File generated on: "]
    ++ ts
      :: (chars "\n/// Definitions included: " ++ natChars rs.length ++ chars "\n")
      :: chars "\n"
      :: (chars "#import \"../src/lib.typ\" as ipa\n")
      :: (chars "#import \"./_display-layouts.typ\": display-diac\n")
      :: chars "\n"
      :: manual_body (chars "") rs

/-! ### Dict-level model of the run (error behavior of `make-diacritics.py`)

The rows produced by `csv.DictReader` are Python dicts whose values can be
`None` (the `restval` fill for a row shorter than the header), so field
access can raise `KeyError` (header lacks the column) and method calls on a
`None` value raise `AttributeError`.  `run_generator` walks the whole script
in the script's evaluation order, propagating the first such error. -/

/-- A Python dict value as it occurs in a `csv.DictReader` row. -/
inductive PyVal where
  | none
  | str (s : List Char)
deriving DecidableEq

/-- The Python exceptions the run can raise, plus `OSError` for a missing or
unreadable input file. -/
inductive PyErr where
  | oserror
  | keyError (key : List Char)
  | attributeError
deriving DecidableEq

/-- A `csv.DictReader` row: field name to value. -/
abbrev RowDict := List (List Char × PyVal)

/-- `d[k]`: the value at a key, or `KeyError`. -/
def dictGet (d : RowDict) (k : List Char) : Except PyErr PyVal :=
  match d.find? (fun kv => kv.1 == k) with
  | some kv => Except.ok kv.2
  | Option.none => Except.error (PyErr.keyError k)

/-- `dict(zip(fieldnames, row))` with `restval = None` fill for a short row
(extra values of a long row go under the `restkey` key `None`, which no field
access of the script ever reads, so they are dropped here). -/
def dict_of_row : List (List Char) → List (List Char) → RowDict
  | [], _ => []
  | h :: hs, [] => (h, PyVal.none) :: dict_of_row hs []
  | h :: hs, v :: vs => (h, PyVal.str v) :: dict_of_row hs vs

/-- `csv.DictReader` over parsed rows: the first row is the header, blank
rows are skipped, every other row becomes a dict (lines 116–118). -/
def read_dicts : List (List (List Char)) → List RowDict
  | [] => []
  | header :: rows => (rows.filter (fun r => !r.isEmpty)).map (dict_of_row header)

/-- How an f-string renders a row value (`None` → `"None"`). -/
def py_fstr : PyVal → List Char
  | PyVal.none => chars "None"
  | PyVal.str s => s

/-- Python truthiness of a row value. -/
def py_truthy : PyVal → Bool
  | PyVal.none => false
  | PyVal.str s => !s.isEmpty

/-- `d["tyipa-aliases"] or "(none)"` on a row value. -/
def alias_display_v : PyVal → List Char
  | PyVal.none => chars "(none)"
  | PyVal.str s => alias_display s

/-- The instantiated `gen_accent_func` lines from rendered values and the
branch flag. -/
def accent_lines (tied : Bool) (ipan ipad unin unih tyn tyad : List Char) :
    List (List Char) :=
  func_header_lines ipan ipad unin unih tyn tyad
    ++ (if tied then tied_body_lines tyn unih else default_body_lines unih)
    ++ [chars "\x7d", chars "\n"]

/-- `gen_accent_func` on a `DictReader` row, with every field access in the
script's evaluation order (line 34 first, then the `.format` keyword
arguments of lines 53–61 left to right). -/
def gen_accent_func_d (d : RowDict) : Except PyErr (List Char) := do
  let g ← dictGet d (chars "group")
  let tied ←
    if g == PyVal.str (chars "segmentation") then do
      match ← dictGet d (chars "tyipa-name") with
      | PyVal.none => Except.error PyErr.attributeError
      | PyVal.str s => Except.ok ((chars "tied-").isPrefixOf s)
    else Except.ok false
  let _ ← dictGet d (chars "group")
  let ipan ← dictGet d (chars "ipa-name")
  let ipad ← dictGet d (chars "ipa-desc")
  let unin ← dictGet d (chars "unicode-name")
  let unih ← dictGet d (chars "unicode-hex")
  let tyn ← dictGet d (chars "tyipa-name")
  let tyad ← dictGet d (chars "tyipa-aliases")
  Except.ok (py_join_nl (accent_lines tied (py_fstr ipan) (py_fstr ipad)
    (py_fstr unin) (py_fstr unih) (py_fstr tyn) (alias_display_v tyad)))

/-- `gen_section_head` on a row value: `None.capitalize()` raises
`AttributeError`. -/
def gen_section_head_d (g : PyVal) : Except PyErr (List Char) :=
  match g with
  | PyVal.none => Except.error PyErr.attributeError
  | PyVal.str s => Except.ok (gen_section_head s)

/-- `gen_manual_section_head` on a row value: `None.title()` raises
`AttributeError`. -/
def gen_manual_section_head_d (g : PyVal) : Except PyErr (List Char) :=
  match g with
  | PyVal.none => Except.error PyErr.attributeError
  | PyVal.str s => Except.ok (gen_manual_section_head s)

/-- The code-file emission loop (lines 136–145) on `DictReader` rows,
carrying `last_section` (initially the Python string `""`). -/
def code_loop_d (last : PyVal) : List RowDict → Except PyErr (List (List Char))
  | [] => Except.ok []
  | d :: ds => do
    let g ← dictGet d (chars "group")
    let st ←
      if g ≠ last then do
        let h ← gen_section_head_d g
        Except.ok (g, [h])
      else Except.ok (last, ([] : List (List Char)))
    let ftext ← gen_accent_func_d d
    let ta ← dictGet d (chars "tyipa-aliases")
    let aliasChunks ←
      match ta with
      | PyVal.none => Except.ok ([] : List (List Char))
      | PyVal.str s =>
        if s.isEmpty then Except.ok []
        else do
          let tyn ← dictGet d (chars "tyipa-name")
          Except.ok ((py_split_space s).map (fun a => gen_alias (py_fstr tyn) a))
    let rest ← code_loop_d st.1 ds
    Except.ok (st.2 ++ ftext :: aliasChunks ++ rest)

/-- `gen_manual_display_code` on a `DictReader` row, field accesses in the
script's evaluation order (lines 86–111). -/
def gen_manual_display_d (d : RowDict) : Except PyErr (List Char) := do
  let _ ← dictGet d (chars "tyipa-name")
  let g ← dictGet d (chars "group")
  let tied ←
    if g == PyVal.str (chars "segmentation") then do
      match ← dictGet d (chars "tyipa-name") with
      | PyVal.none => Except.error PyErr.attributeError
      | PyVal.str s => Except.ok ((chars "tied-").isPrefixOf s)
    else Except.ok false
  let tyn ← dictGet d (chars "tyipa-name")
  let ta ← dictGet d (chars "tyipa-aliases")
  let ipan ← dictGet d (chars "ipa-name")
  let ipad ← dictGet d (chars "ipa-desc")
  let unih ← dictGet d (chars "unicode-hex")
  Except.ok (manual_card tied (py_truthy ta) (py_fstr tyn) (py_fstr ipan)
    (py_fstr ipad) (py_fstr unih) (py_fstr ta))

/-- The manual-file emission loop (lines 165–170) on `DictReader` rows. -/
def manual_loop_d (last : PyVal) : List RowDict → Except PyErr (List (List Char))
  | [] => Except.ok []
  | d :: ds => do
    let g ← dictGet d (chars "group")
    let st ←
      if g ≠ last then do
        let h ← gen_manual_section_head_d g
        Except.ok (g, [h])
      else Except.ok (last, ([] : List (List Char)))
    let card ← gen_manual_display_d d
    let rest ← manual_loop_d st.1 ds
    Except.ok (st.2 ++ card :: rest)

/-- One run of `make-diacritics.py` on a parsed input (`Option.none` models a
missing or unreadable input file, which raises `OSError` at `infile.open`).
The fixed header chunks and the timestamp cannot fail and are modelled by
`code_file_chunks` / `manual_file_chunks`; this function tracks everything
that can raise, in evaluation order, and returns both loop bodies. -/
def run_generator :
    Option (List (List (List Char))) → Except PyErr (List (List Char) × List (List Char))
  | Option.none => Except.error PyErr.oserror
  | some rows => do
    let diacritics := read_dicts rows
    let body ← code_loop_d (PyVal.str []) diacritics
    let mbody ← manual_loop_d (PyVal.str []) diacritics
    Except.ok (body, mbody)

/-- Whether a run completed without an exception. -/
def is_ok {α : Type} : Except PyErr α → Bool
  | Except.ok _ => true
  | Except.error _ => false

/-- The seven required CSV columns. -/
def required_cols : List (List Char) :=
  [chars "group", chars "ipa-name", chars "ipa-desc", chars "unicode-name",
   chars "unicode-hex", chars "tyipa-name", chars "tyipa-aliases"]

/-- A well-formed tabular input: the header carries every required column and
no data row is shorter than the header. -/
def well_formed_csv : List (List (List Char)) → Bool
  | [] => true
  | header :: rows =>
    required_cols.all (fun c => decide (c ∈ header))
      && rows.all (fun r => decide (header.length ≤ r.length))

/-- A row dict on which every required-field access yields a string value. -/
def GoodDict (d : RowDict) : Prop :=
  ∀ c ∈ required_cols, ∃ s, dictGet d c = Except.ok (PyVal.str s)

/-! ### Runtime shape of the generated Typst functions

The generated functions are Typst code, which this repository does not
execute; their runtime behavior is modelled from the spec (§4.2). -/

/-- Modelled from the spec: a Typst value passed to a generated diacritic
function — a string, modelled as its list of extended grapheme clusters, or
a value of another type carrying the name `str(type(base))` renders. -/
inductive TypstVal where
  | str (clusters : List (List Char))
  | other (typeName : List Char)

/-- Modelled from the spec: the runtime behavior of the tied-segmentation
function shape (the Typst code emitted as `tied_body_lines`, which is not
part of this repository): assert the input is a string, split it into
extended grapheme clusters — `base.split("")` yields a leading and a
trailing empty piece around the clusters — assert exactly 4 pieces, and
return `parts.at(1)` + the diacritic character + `parts.at(2)`.  `uchar` is
the character the escape `\u{unicodeHex}` denotes. -/
def tied_apply (tyn uchar : List Char) : TypstVal → Except (List Char) (List Char)
  | TypstVal.str clusters =>
    let parts : List (List Char) := [] :: clusters ++ [[]]
    if parts.length == 4 then
      Except.ok (parts.getD 1 [] ++ uchar ++ parts.getD 2 [])
    else
      Except.error (tyn ++ chars "() expects argument of length 2, "
        ++ natChars (parts.length - 2) ++ chars " given")
  | TypstVal.other tn =>
    Except.error (tyn ++ chars "() expects argument of type `str`, `"
      ++ tn ++ chars "` given")

/-- Modelled from the spec: the runtime behavior of the default function
shape (the Typst code emitted as `default_body_lines`): iterate over the
grapheme clusters of the stringified input, push each cluster followed by
the diacritic character, and join the pieces. -/
def default_apply (uchar : List Char) (clusters : List (List Char)) : List Char :=
  (clusters.foldl (fun acc c => acc ++ [c ++ uchar]) ([] : List (List Char))).flatten

/-! ### Concrete example data used by witnesses and counterexamples -/

/-- A tied-segmentation record with two aliases. -/
def recTied : DiacriticRecord :=
  { group := chars "segmentation", ipa_name := chars "Tie bar",
    ipa_desc := chars "tie bar above", unicode_name := chars "COMBINING DOUBLE INVERTED BREVE",
    unicode_hex := chars "0361", tyipa_name := chars "tied-above",
    tyipa_aliases := chars "a1 a2" }

/-- A plain (default-shape) record with no aliases. -/
def recPlain : DiacriticRecord :=
  { group := chars "spacing", ipa_name := chars "Aspirated",
    ipa_desc := chars "aspirated", unicode_name := chars "MODIFIER LETTER SMALL H",
    unicode_hex := chars "02b0", tyipa_name := chars "aspirated",
    tyipa_aliases := chars "" }

/-- A record with only a group (used for the heading-emission claims). -/
def groupRec (g : List Char) : DiacriticRecord :=
  { group := g, ipa_name := [], ipa_desc := [], unicode_name := [],
    unicode_hex := [], tyipa_name := [], tyipa_aliases := [] }

/-- A CSV whose single data row is shorter than the header (its missing
fields are `None`-filled by `DictReader`). -/
def csv_short_row : List (List (List Char)) :=
  [required_cols, [chars "spacing"]]

/-- A CSV whose single data row is also short, but stops at a `group` value
of `segmentation`: the `None`-filled `tyipa-name` then reaches
`None.startswith("tied-")` (line 34) and the run aborts. -/
def csv_short_segmentation : List (List (List Char)) :=
  [required_cols, [chars "segmentation"]]

/-- A CSV whose header lacks the required `group` column. -/
def csv_missing_group : List (List (List Char)) :=
  [[chars "ipa-name"], [chars "x"]]

/-- A small well-formed CSV. -/
def csv_ok : List (List (List Char)) :=
  [required_cols,
   [chars "spacing", chars "Aspirated", chars "aspirated",
    chars "MODIFIER LETTER SMALL H", chars "02b0", chars "aspirated", chars ""]]

/-- Scanner input with the symbol name `foo` defined in two separate
definition blocks (values `a` then `c`), with `bar` defined in between. -/
def dupLines : List (List Char) :=
  [chars "#let foo = symbol(", chars "  \"a\",",
   chars "#let bar = symbol(", chars "  \"b\",",
   chars "#let foo = symbol(", chars "  \"c\","]

/-! ## Lemmas: CPython dict semantics of the scanner's `symbols` mapping -/

theorem lookup_pyInsert (m : List (PyKey × List Char)) (k k' : PyKey) (v' : List Char) :
    List.lookup k (pyInsert m k' v') =
      if k == k' then some v' else List.lookup k m := by
  induction m with
  | nil =>
    by_cases h : k = k'
    · subst h; simp [pyInsert, List.lookup_cons]
    · have hb : (k == k') = false := beq_eq_false_iff_ne.mpr h
      simp [pyInsert, List.lookup_cons, hb]
  | cons kv t ih =>
    obtain ⟨a, b⟩ := kv
    simp only [pyInsert]
    by_cases h1 : k' = a
    · subst h1
      simp only [beq_self_eq_true, if_true]
      by_cases h : k = k'
      · subst h; simp [List.lookup_cons]
      · have hb : (k == k') = false := beq_eq_false_iff_ne.mpr h
        simp [List.lookup_cons, hb]
    · have hb1 : (k' == a) = false := beq_eq_false_iff_ne.mpr h1
      simp only [hb1, Bool.false_eq_true, if_false]
      by_cases h2 : k = a
      · subst h2
        have hb3 : (k' == k) = false := beq_eq_false_iff_ne.mpr h1
        have hb4 : (k == k') = false := beq_eq_false_iff_ne.mpr (fun e => h1 e.symm)
        simp [List.lookup_cons, hb4]
      · have hb2 : (k == a) = false := beq_eq_false_iff_ne.mpr h2
        simp [List.lookup_cons, hb2, ih]

theorem foldl_pyInsert_lookup (ws : List (PyKey × List Char)) :
    ∀ (syms : List (PyKey × List Char)) (k : PyKey),
      List.lookup k (ws.foldl (fun m kv => pyInsert m kv.1 kv.2) syms) =
        match lastValue k ws with
        | some v => some v
        | Option.none => List.lookup k syms := by
  induction ws with
  | nil => intro syms k; rfl
  | cons kv ws ih =>
    intro syms k
    simp only [List.foldl_cons, lastValue]
    rw [ih]
    cases h : lastValue k ws with
    | some v => simp [h, lookup_pyInsert]
    | none =>
      simp only [h, lookup_pyInsert]
      by_cases hk : k = kv.1 <;> simp [hk]

theorem pyInsert_keys (m : List (PyKey × List Char)) (k : PyKey) (v : List Char) :
    (pyInsert m k v).map Prod.fst =
      if k ∈ m.map Prod.fst then m.map Prod.fst else m.map Prod.fst ++ [k] := by
  induction m with
  | nil => simp [pyInsert]
  | cons kv t ih =>
    obtain ⟨a, b⟩ := kv
    simp only [pyInsert]
    by_cases h : k = a
    · subst h; simp
    · have hb : (k == a) = false := beq_eq_false_iff_ne.mpr h
      simp only [hb, Bool.false_eq_true, if_false, List.map_cons, List.mem_cons, h,
        false_or, ih]
      by_cases h2 : k ∈ t.map Prod.fst <;> simp [h2]

theorem foldl_pyInsert_keys (ws : List (PyKey × List Char)) :
    ∀ syms : List (PyKey × List Char),
      (ws.foldl (fun m kv => pyInsert m kv.1 kv.2) syms).map Prod.fst =
        syms.map Prod.fst
          ++ firstDedup ((ws.map Prod.fst).filter
               (fun x => decide (x ∉ syms.map Prod.fst))) := by
  induction ws with
  | nil => intro syms; simp [firstDedup]
  | cons kv ws ih =>
    intro syms
    simp only [List.foldl_cons, List.map_cons, List.filter_cons]
    by_cases h : kv.1 ∈ syms.map Prod.fst
    · have hd : decide (kv.1 ∉ syms.map Prod.fst) = false := by simp [h]
      rw [hd]
      simp only [Bool.false_eq_true, if_false]
      rw [ih, pyInsert_keys, if_pos h]
    · have hd : decide (kv.1 ∉ syms.map Prod.fst) = true := by simp [h]
      rw [hd]
      simp only [if_true]
      rw [ih, pyInsert_keys, if_neg h, firstDedup]
      have hfilter :
          (ws.map Prod.fst).filter
              (fun x => decide (x ∉ (syms.map Prod.fst ++ [kv.1]))) =
            ((ws.map Prod.fst).filter (fun x => decide (x ∉ syms.map Prod.fst))).filter
              (fun x => !(x == kv.1)) := by
        rw [List.filter_filter]
        apply List.filter_congr
        intro x _
        by_cases h1 : x ∈ syms.map Prod.fst <;> by_cases h2 : x = kv.1 <;>
          simp [h1, h2]
      rw [hfilter, List.append_assoc]
      simp

theorem scanAux_eq_foldl (ls : List (List Char)) :
    ∀ cur syms, scanAux cur syms ls =
      (writesAux cur ls).foldl (fun m kv => pyInsert m kv.1 kv.2) syms := by
  induction ls with
  | nil => intros; rfl
  | cons l ls ih =>
    intro cur syms
    simp only [scanAux, writesAux]
    cases h : lineWrite cur l <;> simp [h, ih]

theorem writesAux_append (as bs : List (List Char)) :
    ∀ cur, writesAux cur (as ++ bs) =
      writesAux cur as ++ writesAux (as.foldl nextCur cur) bs := by
  induction as with
  | nil => intro cur; rfl
  | cons a as ih =>
    intro cur
    simp [writesAux, ih, List.foldl_cons, List.append_assoc]

theorem foldl_nextCur_of_no_def (ls : List (List Char)) :
    ∀ cur, (∀ l ∈ ls, sym_def_match l = Option.none) → ls.foldl nextCur cur = cur := by
  induction ls with
  | nil => intros; rfl
  | cons l ls ih =>
    intro cur h
    have h1 : sym_def_match l = Option.none := h l (by simp)
    simp only [List.foldl_cons, nextCur, h1]
    exact ih cur (fun p hp => h p (by simp [hp]))

theorem lastValue_append_self (ws : List (PyKey × List Char)) (k : PyKey) (v : List Char) :
    lastValue k (ws ++ [(k, v)]) = some v := by
  induction ws with
  | nil => simp [lastValue]
  | cons kv ws ih => simp [lastValue, ih]

/-- C1 counterexample: a primary-association line (`"x",`) that matches before
any definition-start line produces an entry in the recovered mapping — keyed
by the uninitialized `currentsym` (Python `None`) — and the serializer emits
it as `"None": "x",`.  The claim says such an association produces no entry. -/
theorem C1_counterexample :
    scanSymbols [chars "  \"x\","] = [(Option.none, [('x' : Char)])]
      ∧ symDictEntryLines (scanSymbols [chars "  \"x\","])
          = [chars "  \"None\": \"x\","] := by
  exact ⟨rfl, rfl⟩

/-- C1 (amended): a primary or secondary association matching before any
definition-start line is not skipped: a primary association stores its
character under the `None` key of the `symbols` dict, and a secondary
association under the string key `"None." ++ name` (the f-string rendering
of the uninitialized `currentsym`), so the recovered mapping does contain a
corresponding entry. -/
theorem C1_association_before_def_recorded :
    (∀ pre l c, (∀ p ∈ pre ++ [l], sym_def_match p = Option.none) →
      sym_primary_match l = some c →
      List.lookup Option.none (scanSymbols (pre ++ [l])) = some [c])
    ∧ (∀ pre l n c, (∀ p ∈ pre ++ [l], sym_def_match p = Option.none) →
      sym_primary_match l = Option.none → sym_secondary_match l = some (n, c) →
      List.lookup (some (chars "None." ++ n)) (scanSymbols (pre ++ [l]))
        = some [c]) := by
  constructor
  · intro pre l c hnodef hprim
    have hpre : ∀ p ∈ pre, sym_def_match p = Option.none :=
      fun p hp => hnodef p (List.mem_append_left _ hp)
    have hl : sym_def_match l = Option.none :=
      hnodef l (List.mem_append_right _ (by simp))
    rw [scanSymbols, scanAux_eq_foldl, foldl_pyInsert_lookup, writesAux_append,
      foldl_nextCur_of_no_def pre _ hpre]
    have hw : writesAux Option.none [l] = [((Option.none : PyKey), [c])] := by
      simp [writesAux, lineWrite, hl, hprim]
    rw [hw, lastValue_append_self]
  · intro pre l n c hnodef hprim hsec
    have hpre : ∀ p ∈ pre, sym_def_match p = Option.none :=
      fun p hp => hnodef p (List.mem_append_left _ hp)
    have hl : sym_def_match l = Option.none :=
      hnodef l (List.mem_append_right _ (by simp))
    rw [scanSymbols, scanAux_eq_foldl, foldl_pyInsert_lookup, writesAux_append,
      foldl_nextCur_of_no_def pre _ hpre]
    have hw : writesAux Option.none [l]
        = [((some (chars "None." ++ n) : PyKey), [c])] := by
      simp only [writesAux, lineWrite, hl, hprim, hsec, pyShow]
      have : (chars "None" ++ chars "." : List Char) = chars "None." := by decide
      simp [this]
    rw [hw, lastValue_append_self]

/-- C1 witness: concrete instances of the amended claim — a lone primary line
and a lone secondary line each create the sentinel-keyed entry. -/
theorem C1_witness :
    List.lookup Option.none (scanSymbols [chars "\"x\","]) = some [('x' : Char)]
    ∧ List.lookup (some (chars "None." ++ chars "bar"))
        (scanSymbols [chars "(\"bar\", \"y\"),"]) = some [('y' : Char)] := by
  constructor
  · exact C1_association_before_def_recorded.1 [] (chars "\"x\",") 'x'
      (by decide) (by decide)
  · exact C1_association_before_def_recorded.2 [] (chars "(\"bar\", \"y\"),")
      (chars "bar") 'y' (by decide) (by decide) (by decide)

/-- C6: for every scanner input, the recovered mapping has exactly one entry
per unique key, keys appear in order of the key's first write, each key's
value is the value of its last write in scan order, and on a concrete input
with `foo` defined in two separate definition blocks the emitted mapping
keeps `foo` at its first-insertion position with the later value. -/
theorem C6_duplicate_names_last_write_wins :
    (∀ ls, (scanSymbols ls).map Prod.fst = firstDedup ((writes ls).map Prod.fst))
    ∧ (∀ ls k, List.lookup k (scanSymbols ls) = lastValue k (writes ls))
    ∧ scanSymbols dupLines
        = [(some (chars "foo"), [('c' : Char)]), (some (chars "bar"), [('b' : Char)])]
    ∧ symDictEntryLines (scanSymbols dupLines)
        = [chars "  \"foo\": \"c\",", chars "  \"bar\": \"b\","] := by
  refine ⟨fun ls => ?_, fun ls k => ?_, rfl, rfl⟩
  · rw [scanSymbols, writes, scanAux_eq_foldl, foldl_pyInsert_keys]
    have : ((writesAux Option.none ls).map Prod.fst).filter
        (fun x => decide (x ∉ (([] : List (PyKey × List Char)).map Prod.fst)))
          = (writesAux Option.none ls).map Prod.fst := by
      apply List.filter_eq_self.mpr
      intro a _
      simp
    simp only [List.map_nil, List.nil_append]
    rw [show (fun x : PyKey => decide (x ∉ ([] : List PyKey)))
        = fun _ : PyKey => true from by funext x; simp, List.filter_true]
  · rw [scanSymbols, writes, scanAux_eq_foldl, foldl_pyInsert_lookup]
    cases h : lastValue k (writesAux Option.none ls) <;> simp [h, List.lookup]

/-! ## Lemmas: section headings of the diacritics emission loops -/

theorem is_head_chunk_section_head (g : List Char) :
    is_head_chunk (gen_section_head g) = true := rfl

theorem is_head_chunk_accent (r : DiacriticRecord) :
    is_head_chunk (gen_accent_func r) = false := rfl

theorem is_head_chunk_alias (orig als : List Char) :
    is_head_chunk (gen_alias orig als) = false := rfl

theorem section_head_groups_eq_claimed (rs : List DiacriticRecord) :
    ∀ prev, section_head_groups prev rs
      = claimed_head_groups_from prev (rs.map DiacriticRecord.group) := by
  induction rs with
  | nil => intro prev; rfl
  | cons r rs ih =>
    intro prev
    simp only [section_head_groups, claimed_head_groups_from, List.map_cons,
      List.zip_cons_cons, List.filterMap_cons]
    by_cases h : r.group = prev
    · subst h
      simp [ih, claimed_head_groups_from]
    · simp [h, ih, claimed_head_groups_from]

theorem code_body_heads (rs : List DiacriticRecord) :
    ∀ last, (code_body last rs).filter is_head_chunk
      = (section_head_groups last rs).map gen_section_head := by
  induction rs with
  | nil => intro last; rfl
  | cons r rs ih =>
    intro last
    have halias :
        ((alias_names r).map (fun a => gen_alias r.tyipa_name a)).filter is_head_chunk
          = [] := by
      rw [List.filter_eq_nil_iff]
      intro c hc
      obtain ⟨a, _, rfl⟩ := List.mem_map.mp hc
      simp [is_head_chunk_alias]
    simp only [code_body, section_head_groups, List.filter_append, List.filter_cons,
      is_head_chunk_accent, Bool.false_eq_true, if_false, halias, ih, List.map_append]
    by_cases h : r.group ≠ last <;>
      simp [h, is_head_chunk_section_head, List.filter_cons]

/-- C7 counterexample: for a single record whose group is the empty string —
equal to the initial `last_section = ""` — the loop emits no heading at all,
although the claim says the first record always gets a heading. -/
theorem C7_counterexample :
    section_head_groups (chars "") [groupRec (chars "")] = []
      ∧ (code_body (chars "") [groupRec (chars "")]).filter is_head_chunk = [] := by
  exact ⟨rfl, rfl⟩

/-- C7 (amended): a heading is emitted exactly before each record whose group
differs from the immediately preceding record's group, where the phantom
group before the first record is the empty string (so the first record gets
a heading iff its group is nonempty); the heading chunks appearing in the
emitted body are exactly those of the emission decisions, and records with
groups `[alpha, alpha, beta, alpha]` produce exactly three headings, in
order `alpha, beta, alpha`. -/
theorem C7_heading_emission :
    (∀ rs, section_head_groups (chars "") rs
        = claimed_head_groups (rs.map DiacriticRecord.group))
    ∧ (∀ last rs, (code_body last rs).filter is_head_chunk
        = (section_head_groups last rs).map gen_section_head)
    ∧ section_head_groups (chars "")
        [groupRec (chars "alpha"), groupRec (chars "alpha"),
         groupRec (chars "beta"), groupRec (chars "alpha")]
        = [chars "alpha", chars "beta", chars "alpha"] := by
  refine ⟨fun rs => section_head_groups_eq_claimed rs (chars ""),
    fun last rs => code_body_heads rs last, by decide⟩

/-! ## Lemmas: the two code shapes of `gen_accent_func` -/

theorem gen_lines_tied (r : DiacriticRecord) (h : isTiedSegmentation r = true) :
    gen_accent_func_lines r
      = func_header_lines r.ipa_name r.ipa_desc r.unicode_name r.unicode_hex
          r.tyipa_name (alias_display r.tyipa_aliases)
        ++ tied_body_lines r.tyipa_name r.unicode_hex
        ++ [chars "\x7d", chars "\n"] := by
  simp [gen_accent_func_lines, h]

theorem gen_lines_default (r : DiacriticRecord) (h : isTiedSegmentation r = false) :
    gen_accent_func_lines r
      = func_header_lines r.ipa_name r.ipa_desc r.unicode_name r.unicode_hex
          r.tyipa_name (alias_display r.tyipa_aliases)
        ++ default_body_lines r.unicode_hex
        ++ [chars "\x7d", chars "\n"] := by
  simp [gen_accent_func_lines, h]

theorem map_take4_tied (ipan ipad unin unih tyn tyad : List Char) :
    (func_header_lines ipan ipad unin unih tyn tyad
        ++ tied_body_lines tyn unih ++ [chars "\x7d", chars "\n"]).map
          (fun l => l.take 4)
      = [chars "/// ", chars "/// ", chars "/// ", chars "/// ", chars "/// ",
         chars "/// ", chars "/// ", chars "/// ", chars "/// ", chars "/// ",
         chars "/// ", chars "#let", chars "  //", chars "  //", chars "  ba",
         chars ") = ", chars "  as", chars "    ", chars "    ", chars "  )",
         chars "  le", chars "  as", chars "    ", chars "    ", chars "  )",
         chars "  pa", chars "\x7d", chars "\n"] := rfl

theorem map_take4_default (ipan ipad unin unih tyn tyad : List Char) :
    (func_header_lines ipan ipad unin unih tyn tyad
        ++ default_body_lines unih ++ [chars "\x7d", chars "\n"]).map
          (fun l => l.take 4)
      = [chars "/// ", chars "/// ", chars "/// ", chars "/// ", chars "/// ",
         chars "/// ", chars "/// ", chars "/// ", chars "/// ", chars "/// ",
         chars "/// ", chars "#let", chars "  //", chars "  //", chars "  ba",
         chars ") = ", chars "  le", chars "  fo", chars "    ", chars "  \x7d",
         chars "  mo", chars "\x7d", chars "\n"] := rfl

theorem tied_blocks_present (r : DiacriticRecord) (h : isTiedSegmentation r = true) :
    tied_type_assert_block r.tyipa_name <:+: gen_accent_func_lines r
    ∧ tied_len_assert_block r.tyipa_name <:+: gen_accent_func_lines r := by
  rw [gen_lines_tied r h]
  constructor
  · exact ⟨func_header_lines r.ipa_name r.ipa_desc r.unicode_name r.unicode_hex
        r.tyipa_name (alias_display r.tyipa_aliases),
      (tied_body_lines r.tyipa_name r.unicode_hex).drop 4
        ++ [chars "\x7d", chars "\n"], rfl⟩
  · exact ⟨func_header_lines r.ipa_name r.ipa_desc r.unicode_name r.unicode_hex
        r.tyipa_name (alias_display r.tyipa_aliases)
        ++ (tied_body_lines r.tyipa_name r.unicode_hex).take 5,
      (tied_body_lines r.tyipa_name r.unicode_hex).drop 9
        ++ [chars "\x7d", chars "\n"], rfl⟩

theorem default_not_infix_of_tied (r : DiacriticRecord)
    (h : isTiedSegmentation r = true) :
    ¬ default_body_lines r.unicode_hex <:+: gen_accent_func_lines r := by
  intro hinf
  rw [gen_lines_tied r h] at hinf
  have hm := hinf.subset
    (show chars "  for chr in str(base) \x7b" ∈ default_body_lines r.unicode_hex by
      simp [default_body_lines])
  have hm2 := List.mem_map_of_mem (fun l => l.take 4) hm
  rw [map_take4_tied] at hm2
  exact absurd hm2 (by decide)

theorem default_infix_of_not_tied (r : DiacriticRecord)
    (h : isTiedSegmentation r = false) :
    default_body_lines r.unicode_hex <:+: gen_accent_func_lines r := by
  rw [gen_lines_default r h]
  exact ⟨func_header_lines r.ipa_name r.ipa_desc r.unicode_name r.unicode_hex
      r.tyipa_name (alias_display r.tyipa_aliases),
    [chars "\x7d", chars "\n"], rfl⟩

theorem tied_type_not_infix_of_default (r : DiacriticRecord)
    (h : isTiedSegmentation r = false) :
    ¬ tied_type_assert_block r.tyipa_name <:+: gen_accent_func_lines r := by
  intro hinf
  rw [gen_lines_default r h] at hinf
  have hm := hinf.subset
    (show chars "  assert(" ∈ tied_type_assert_block r.tyipa_name by
      simp [tied_type_assert_block])
  have hm2 := List.mem_map_of_mem (fun l => l.take 4) hm
  rw [map_take4_default] at hm2
  exact absurd hm2 (by decide)

theorem tied_len_not_infix_of_default (r : DiacriticRecord)
    (h : isTiedSegmentation r = false) :
    ¬ tied_len_assert_block r.tyipa_name <:+: gen_accent_func_lines r := by
  intro hinf
  rw [gen_lines_default r h] at hinf
  have hm := hinf.subset
    (show chars "  assert(" ∈ tied_len_assert_block r.tyipa_name by
      simp [tied_len_assert_block])
  have hm2 := List.mem_map_of_mem (fun l => l.take 4) hm
  rw [map_take4_default] at hm2
  exact absurd hm2 (by decide)

theorem isTiedSegmentation_iff (r : DiacriticRecord) :
    isTiedSegmentation r = true
      ↔ (r.group = chars "segmentation"
          ∧ (chars "tied-").isPrefixOf r.tyipa_name = true) := by
  simp [isTiedSegmentation, Bool.and_eq_true, beq_iff_eq]

/-- C3: the tied-segmentation shape is selected iff the record's group is
`segmentation` and its name starts with `tied-`; exactly those records'
synthesized lines contain both assertion blocks (and not the default loop),
and all other records' lines contain the default per-cluster loop instead
(and neither assertion block). -/
theorem C3_code_shape_selection (r : DiacriticRecord) :
    ((r.group = chars "segmentation"
        ∧ (chars "tied-").isPrefixOf r.tyipa_name = true) →
      tied_type_assert_block r.tyipa_name <:+: gen_accent_func_lines r
      ∧ tied_len_assert_block r.tyipa_name <:+: gen_accent_func_lines r
      ∧ ¬ default_body_lines r.unicode_hex <:+: gen_accent_func_lines r)
    ∧ (¬(r.group = chars "segmentation"
        ∧ (chars "tied-").isPrefixOf r.tyipa_name = true) →
      default_body_lines r.unicode_hex <:+: gen_accent_func_lines r
      ∧ ¬ tied_type_assert_block r.tyipa_name <:+: gen_accent_func_lines r
      ∧ ¬ tied_len_assert_block r.tyipa_name <:+: gen_accent_func_lines r) := by
  constructor
  · intro hc
    have h := (isTiedSegmentation_iff r).mpr hc
    exact ⟨(tied_blocks_present r h).1, (tied_blocks_present r h).2,
      default_not_infix_of_tied r h⟩
  · intro hc
    have h : isTiedSegmentation r = false := by
      cases hh : isTiedSegmentation r
      · rfl
      · exact absurd ((isTiedSegmentation_iff r).mp hh) hc
    exact ⟨default_infix_of_not_tied r h, tied_type_not_infix_of_default r h,
      tied_len_not_infix_of_default r h⟩

/-- C3 witness: concrete instances — the tied record `recTied` satisfies the
predicate and carries the assertion blocks; `recPlain` does not and carries
the loop shape. -/
theorem C3_witness :
    (tied_type_assert_block recTied.tyipa_name <:+: gen_accent_func_lines recTied)
    ∧ (¬ default_body_lines recTied.unicode_hex <:+: gen_accent_func_lines recTied)
    ∧ (default_body_lines recPlain.unicode_hex <:+: gen_accent_func_lines recPlain) := by
  refine ⟨((C3_code_shape_selection recTied).1 ⟨by decide, by decide⟩).1,
    ((C3_code_shape_selection recTied).1 ⟨by decide, by decide⟩).2.2,
    ((C3_code_shape_selection recPlain).2 (by decide)).1⟩

/-! ## Lemmas: binding counts of the emitted record text -/

theorem countP_is_let_tied (ipan ipad unin unih tyn tyad : List Char) :
    List.countP is_let_line
      (func_header_lines ipan ipad unin unih tyn tyad
        ++ tied_body_lines tyn unih ++ [chars "\x7d", chars "\n"]) = 1 := rfl

theorem countP_is_let_default (ipan ipad unin unih tyn tyad : List Char) :
    List.countP is_let_line
      (func_header_lines ipan ipad unin unih tyn tyad
        ++ default_body_lines unih ++ [chars "\x7d", chars "\n"]) = 1 := rfl

theorem countP_is_let_alias (orig als : List Char) :
    List.countP is_let_line (gen_alias_lines orig als) = 1 := rfl

theorem countP_is_let_flatMap (orig : List Char) (as : List (List Char)) :
    List.countP is_let_line
      (as.flatMap (fun a => gen_alias_lines orig a)) = as.length := by
  induction as with
  | nil => rfl
  | cons a as ih =>
    simp only [List.flatMap_cons, List.countP_append, ih, countP_is_let_alias,
      List.length_cons]
    omega

/-- C8: for every record, the emitted lines contain exactly one `#let`
binding for the function plus one per split alias (zero when the alias field
is empty), and each alias binding binds the alias directly to the generated
function name. -/
theorem C8_one_function_binding_per_alias (r : DiacriticRecord) :
    List.countP is_let_line (emit_record_lines r) = 1 + (alias_names r).length
    ∧ ∀ a ∈ alias_names r,
        (chars "#let " ++ (a ++ (chars " = " ++ r.tyipa_name)))
          ∈ emit_record_lines r := by
  constructor
  · rw [emit_record_lines, List.countP_append, countP_is_let_flatMap]
    have hone : List.countP is_let_line (gen_accent_func_lines r) = 1 := by
      cases h : isTiedSegmentation r
      · rw [gen_lines_default r h]; exact countP_is_let_default _ _ _ _ _ _
      · rw [gen_lines_tied r h]; exact countP_is_let_tied _ _ _ _ _ _
    rw [hone]
  · intro a ha
    refine List.mem_append_right _ (List.mem_flatMap.mpr ⟨a, ha, ?_⟩)
    simp [gen_alias_lines]

/-- C8 witness: the record with alias field `a1 a2` emits the direct binding
`#let a1 = tied-above`. -/
theorem C8_witness :
    (chars "#let " ++ (chars "a1" ++ (chars " = " ++ recTied.tyipa_name)))
      ∈ emit_record_lines recTied :=
  (C8_one_function_binding_per_alias recTied).2 (chars "a1") (by decide)

set_option maxRecDepth 16384 in
/-- C10: the manual display card embeds the raw alias field verbatim in a
single alias signature (`aliases: ("<field>(base: <sig>)",)`) when the field
is truthy, and no alias part otherwise; on the concrete record with alias
field `a1 a2` the card carries the single combined signature and no
per-alias signature `a1(base:`. -/
theorem C10_manual_alias_field_verbatim :
    (∀ r : DiacriticRecord, r.tyipa_aliases.isEmpty = false →
      gen_manual_display_code r
        = manual_card_front (isTiedSegmentation r) r.tyipa_name r.ipa_name
            r.ipa_desc r.unicode_hex
          ++ manual_aliases_text (isTiedSegmentation r) r.tyipa_aliases
          ++ (manual_notes_text (isTiedSegmentation r) ++ chars ")\n"))
    ∧ (∀ r : DiacriticRecord, r.tyipa_aliases.isEmpty = true →
      gen_manual_display_code r
        = manual_card_front (isTiedSegmentation r) r.tyipa_name r.ipa_name
            r.ipa_desc r.unicode_hex
          ++ (manual_notes_text (isTiedSegmentation r) ++ chars ")\n"))
    ∧ (chars "aliases: (\"a1 a2(base: str)\",)") <:+: gen_manual_display_code recTied
    ∧ ¬ (chars "a1(base:") <:+: gen_manual_display_code recTied := by
  refine ⟨fun r h => ?_, fun r h => ?_, by decide, by decide⟩
  · simp [gen_manual_display_code, manual_card, h, List.append_assoc]
  · simp [gen_manual_display_code, manual_card, h, List.append_assoc]

/-- C10 witness: the structural equation instantiated at the concrete record
with alias field `a1 a2`. -/
theorem C10_witness :
    gen_manual_display_code recTied
      = manual_card_front (isTiedSegmentation recTied) recTied.tyipa_name
          recTied.ipa_name recTied.ipa_desc recTied.unicode_hex
        ++ manual_aliases_text (isTiedSegmentation recTied) recTied.tyipa_aliases
        ++ (manual_notes_text (isTiedSegmentation recTied) ++ chars ")\n") :=
  C10_manual_alias_field_verbatim.1 recTied (by decide)

/-- C4: a generated tied-segmentation function applied to a string of exactly
two clusters returns the first cluster, the diacritic character, then the
second cluster; applied to any other cluster count it fails with the
assertion message reporting `parts.len() - 2`, i.e. the cluster count.
(The Typst runtime of the emitted shape is modelled from the spec.) -/
theorem C4_tied_runtime :
    (∀ tyn uchar c1 c2, tied_apply tyn uchar (TypstVal.str [c1, c2])
        = Except.ok (c1 ++ uchar ++ c2))
    ∧ (∀ tyn uchar cs, cs.length ≠ 2 →
        tied_apply tyn uchar (TypstVal.str cs)
          = Except.error (tyn ++ chars "() expects argument of length 2, "
              ++ natChars cs.length ++ chars " given")) := by
  constructor
  · intro tyn uchar c1 c2; rfl
  · intro tyn uchar cs h
    have hlen : (([] :: cs ++ [[]] : List (List Char))).length = cs.length + 2 := by
      simp
    have hne : (cs.length + 2 == 4) = false := beq_eq_false_iff_ne.mpr (by omega)
    simp only [tied_apply, hlen, Nat.add_sub_cancel, hne, Bool.false_eq_true,
      if_false]

/-- C4 witness: a one-cluster and a three-cluster input each trip the count
assertion, reporting counts 1 and 3. -/
theorem C4_witness :
    tied_apply (chars "f") (chars "u") (TypstVal.str [chars "a"])
        = Except.error (chars "f" ++ chars "() expects argument of length 2, "
            ++ natChars ([chars "a"] : List (List Char)).length ++ chars " given")
    ∧ tied_apply (chars "f") (chars "u")
          (TypstVal.str [chars "a", chars "b", chars "c"])
        = Except.error (chars "f" ++ chars "() expects argument of length 2, "
            ++ natChars ([chars "a", chars "b", chars "c"] : List (List Char)).length
            ++ chars " given") :=
  ⟨C4_tied_runtime.2 (chars "f") (chars "u") [chars "a"] (by decide),
   C4_tied_runtime.2 (chars "f") (chars "u") [chars "a", chars "b", chars "c"]
     (by decide)⟩

/-- C5: a generated default-shape function appends the diacritic character
after every grapheme cluster of its stringified input, in input order; for
input `ab` with `unicodeHex = 0301` the output is `a-U+0301-b-U+0301`.
(The Typst runtime of the emitted shape is modelled from the spec.) -/
theorem C5_default_runtime :
    (∀ uchar cs, default_apply uchar cs = (cs.map (fun c => c ++ uchar)).flatten)
    ∧ default_apply (chars "́") [chars "a", chars "b"]
        = chars "áb́" := by
  constructor
  · intro uchar cs
    rw [default_apply]
    have hfold : ∀ (l : List (List Char)) (acc : List (List Char)),
        l.foldl (fun acc c => acc ++ [c ++ uchar]) acc
          = acc ++ l.map (fun c => c ++ uchar) := by
      intro l
      induction l with
      | nil => intro acc; simp
      | cons c l ih => intro acc; simp [ih]
    rw [hfold]
    simp
  · rfl

/-- C9: on the same records, the chunks written to each output file are
identical between two runs except for the chunk at position 7, which is
exactly the embedded timestamp (the tail of the `File generated on:` line). -/
theorem C9_rerun_identical_but_timestamp (ts₁ ts₂ : List Char)
    (rs : List DiacriticRecord) :
    ((code_file_chunks ts₁ rs).eraseIdx 7 = (code_file_chunks ts₂ rs).eraseIdx 7
      ∧ (code_file_chunks ts₁ rs)[7]? = some ts₁)
    ∧ ((manual_file_chunks ts₁ rs).eraseIdx 7 = (manual_file_chunks ts₂ rs).eraseIdx 7
      ∧ (manual_file_chunks ts₁ rs)[7]? = some ts₁) := by
  exact ⟨⟨rfl, rfl⟩, ⟨rfl, rfl⟩⟩

/-! ## Lemmas: error behavior of the diacritics run -/

theorem dictGet_cons_ne (h : List Char) (v : PyVal) (d : RowDict) (c : List Char)
    (hne : (h == c) = false) : dictGet ((h, v) :: d) c = dictGet d c := by
  simp [dictGet, List.find?_cons, hne]

theorem dictGet_of_mem (header : List (List Char)) :
    ∀ (row : List (List Char)) (c : List Char), c ∈ header →
      header.length ≤ row.length →
      ∃ s, dictGet (dict_of_row header row) c = Except.ok (PyVal.str s) := by
  induction header with
  | nil => intro row c hc _; cases hc
  | cons h hs ih =>
    intro row c hc hlen
    cases row with
    | nil => simp at hlen
    | cons v vs =>
      by_cases he : h = c
      · subst he
        exact ⟨v, by simp [dict_of_row, dictGet, List.find?_cons]⟩
      · have hc2 : c ∈ hs := by
          rcases List.mem_cons.mp hc with h1 | h2
          · exact absurd h1.symm he
          · exact h2
        have hlen2 : hs.length ≤ vs.length := by simpa using hlen
        obtain ⟨s, hsg⟩ := ih vs c hc2 hlen2
        have hbe : (h == c) = false := beq_eq_false_iff_ne.mpr he
        exact ⟨s, by rw [dict_of_row, dictGet_cons_ne _ _ _ _ hbe]; exact hsg⟩

theorem dictGet_of_not_mem (header : List (List Char)) :
    ∀ (row : List (List Char)) (c : List Char), c ∉ header →
      dictGet (dict_of_row header row) c = Except.error (PyErr.keyError c) := by
  induction header with
  | nil => intro row c _; cases row <;> rfl
  | cons h hs ih =>
    intro row c hc
    have hbe : (h == c) = false :=
      beq_eq_false_iff_ne.mpr (fun e => hc (by simp [e]))
    have hcs : c ∉ hs := fun hx => hc (by simp [hx])
    cases row with
    | nil => rw [dict_of_row, dictGet_cons_ne _ _ _ _ hbe]; exact ih [] c hcs
    | cons v vs => rw [dict_of_row, dictGet_cons_ne _ _ _ _ hbe]; exact ih vs c hcs

theorem gen_accent_func_d_ok (d : RowDict) (hd : GoodDict d) :
    ∃ t, gen_accent_func_d d = Except.ok t := by
  obtain ⟨g, hgr⟩ := hd (chars "group") (by simp [required_cols])
  obtain ⟨tn, htn⟩ := hd (chars "tyipa-name") (by simp [required_cols])
  obtain ⟨i1, hi1⟩ := hd (chars "ipa-name") (by simp [required_cols])
  obtain ⟨i2, hi2⟩ := hd (chars "ipa-desc") (by simp [required_cols])
  obtain ⟨u1, hu1⟩ := hd (chars "unicode-name") (by simp [required_cols])
  obtain ⟨u2, hu2⟩ := hd (chars "unicode-hex") (by simp [required_cols])
  obtain ⟨ta, hta⟩ := hd (chars "tyipa-aliases") (by simp [required_cols])
  unfold gen_accent_func_d
  rw [hgr, htn, hi1, hi2, hu1, hu2, hta]
  by_cases hc : g = chars "segmentation"
  · subst hc
    exact ⟨_, rfl⟩
  · have hb : (PyVal.str g == PyVal.str (chars "segmentation")) = false := by
      simp [hc]
    dsimp only [bind, Except.bind]
    rw [hb]
    exact ⟨_, rfl⟩

theorem gen_manual_display_d_ok (d : RowDict) (hd : GoodDict d) :
    ∃ t, gen_manual_display_d d = Except.ok t := by
  obtain ⟨g, hgr⟩ := hd (chars "group") (by simp [required_cols])
  obtain ⟨tn, htn⟩ := hd (chars "tyipa-name") (by simp [required_cols])
  obtain ⟨i1, hi1⟩ := hd (chars "ipa-name") (by simp [required_cols])
  obtain ⟨i2, hi2⟩ := hd (chars "ipa-desc") (by simp [required_cols])
  obtain ⟨u2, hu2⟩ := hd (chars "unicode-hex") (by simp [required_cols])
  obtain ⟨ta, hta⟩ := hd (chars "tyipa-aliases") (by simp [required_cols])
  unfold gen_manual_display_d
  rw [hgr, htn, hi1, hi2, hu2, hta]
  by_cases hc : g = chars "segmentation"
  · subst hc
    exact ⟨_, rfl⟩
  · have hb : (PyVal.str g == PyVal.str (chars "segmentation")) = false := by
      simp [hc]
    dsimp only [bind, Except.bind]
    rw [hb]
    exact ⟨_, rfl⟩

theorem code_loop_d_ok (ds : List RowDict) :
    ∀ last, (∀ d ∈ ds, GoodDict d) →
      ∃ out, code_loop_d last ds = Except.ok out := by
  induction ds with
  | nil => intro last _; exact ⟨[], rfl⟩
  | cons d ds ih =>
    intro last hall
    have hd : GoodDict d := hall d (by simp)
    have hds : ∀ x ∈ ds, GoodDict x := fun x hx => hall x (by simp [hx])
    obtain ⟨g, hgr⟩ := hd (chars "group") (by simp [required_cols])
    obtain ⟨ta, hta⟩ := hd (chars "tyipa-aliases") (by simp [required_cols])
    obtain ⟨tn, htn⟩ := hd (chars "tyipa-name") (by simp [required_cols])
    obtain ⟨ft, hft⟩ := gen_accent_func_d_ok d hd
    obtain ⟨rest1, hrest1⟩ := ih (PyVal.str g) hds
    obtain ⟨rest2, hrest2⟩ := ih last hds
    unfold code_loop_d
    rw [hgr, hft, hta, htn]
    dsimp only [bind, Except.bind]
    by_cases hlast : PyVal.str g ≠ last
    · rw [if_pos hlast]
      dsimp only [bind, Except.bind, gen_section_head_d]
      rw [hrest1]
      by_cases hempty : ta.isEmpty
      · rw [if_pos hempty]
        exact ⟨_, rfl⟩
      · rw [if_neg hempty]
        exact ⟨_, rfl⟩
    · rw [if_neg hlast]
      rw [hrest2]
      by_cases hempty : ta.isEmpty
      · rw [if_pos hempty]
        exact ⟨_, rfl⟩
      · rw [if_neg hempty]
        exact ⟨_, rfl⟩

theorem manual_loop_d_ok (ds : List RowDict) :
    ∀ last, (∀ d ∈ ds, GoodDict d) →
      ∃ out, manual_loop_d last ds = Except.ok out := by
  induction ds with
  | nil => intro last _; exact ⟨[], rfl⟩
  | cons d ds ih =>
    intro last hall
    have hd : GoodDict d := hall d (by simp)
    have hds : ∀ x ∈ ds, GoodDict x := fun x hx => hall x (by simp [hx])
    obtain ⟨g, hgr⟩ := hd (chars "group") (by simp [required_cols])
    obtain ⟨card, hcard⟩ := gen_manual_display_d_ok d hd
    obtain ⟨rest1, hrest1⟩ := ih (PyVal.str g) hds
    obtain ⟨rest2, hrest2⟩ := ih last hds
    unfold manual_loop_d
    rw [hgr, hcard]
    dsimp only [bind, Except.bind]
    by_cases hlast : PyVal.str g ≠ last
    · rw [if_pos hlast]
      dsimp only [bind, Except.bind, gen_manual_section_head_d]
      rw [hrest1]
      exact ⟨_, rfl⟩
    · rw [if_neg hlast]
      rw [hrest2]
      exact ⟨_, rfl⟩

theorem read_dicts_good (header : List (List Char)) (rows : List (List (List Char)))
    (hcols : ∀ c ∈ required_cols, c ∈ header)
    (hlen : ∀ r ∈ rows, header.length ≤ r.length) :
    ∀ d ∈ read_dicts (header :: rows), GoodDict d := by
  intro d hdm
  simp only [read_dicts, List.mem_map] at hdm
  obtain ⟨r, hr, rfl⟩ := hdm
  intro c hc
  exact dictGet_of_mem header r c (hcols c hc)
    (hlen r (List.mem_of_mem_filter hr))

theorem run_generator_some (rows : List (List (List Char))) :
    run_generator (some rows) = (do
      let body ← code_loop_d (PyVal.str []) (read_dicts rows)
      let mbody ← manual_loop_d (PyVal.str []) (read_dicts rows)
      Except.ok (body, mbody)) := rfl

/-- C2 counterexample: a data row that is missing required columns (it is
shorter than the header, leaving only `group = "spacing"`) does not abort
the run: `DictReader` fills the missing fields with `None`, no method is
called on any of those `None` values, and the whole generation completes
without error, rendering the missing values as `None` — refuting "for every
such faulty input the run aborts with that error". -/
theorem C2_counterexample :
    is_ok (run_generator (some csv_short_row)) = true := rfl

/-- C2 (amended): a missing or unreadable input file aborts the run at open
(`OSError`, the spec's `LoadError`), and a well-formed input (all required
columns present, no short rows) raises no error.  A row missing a required
column never fails in the loader and does not necessarily abort the run at
all (see the counterexample); when a missing field does get used, the run
aborts at generation time with the corresponding Python exception: a header
without `group` gives `KeyError group` at the generation loop's first field
access (when at least one data row exists), and a short row whose `group`
is `segmentation` gives `AttributeError` when its `None`-valued
`tyipa-name` reaches `startswith` (line 34). -/
theorem C2_load_error_behavior :
    (run_generator Option.none = Except.error PyErr.oserror)
    ∧ (∀ header rows, (chars "group") ∉ header →
        read_dicts (header :: rows) ≠ [] →
        run_generator (some (header :: rows))
          = Except.error (PyErr.keyError (chars "group")))
    ∧ (∀ csv, well_formed_csv csv = true →
        is_ok (run_generator (some csv)) = true)
    ∧ run_generator (some csv_short_segmentation)
        = Except.error PyErr.attributeError := by
  refine ⟨rfl, ?_, ?_, rfl⟩
  · intro header rows hng hne
    cases hd : read_dicts (header :: rows) with
    | nil => exact absurd hd hne
    | cons d ds =>
      have hdm : d ∈ read_dicts (header :: rows) := by rw [hd]; simp
      simp only [read_dicts, List.mem_map] at hdm
      obtain ⟨r, _, rfl⟩ := hdm
      have hge := dictGet_of_not_mem header r (chars "group") hng
      rw [run_generator_some, hd]
      unfold code_loop_d
      rw [hge]
      rfl
  · intro csv hwf
    cases csv with
    | nil => rfl
    | cons header rows =>
      simp only [well_formed_csv, Bool.and_eq_true, List.all_eq_true,
        decide_eq_true_eq] at hwf
      have hall := read_dicts_good header rows hwf.1 hwf.2
      obtain ⟨b1, hb1⟩ :=
        code_loop_d_ok (read_dicts (header :: rows)) (PyVal.str []) hall
      obtain ⟨b2, hb2⟩ :=
        manual_loop_d_ok (read_dicts (header :: rows)) (PyVal.str []) hall
      rw [run_generator_some, hb1, hb2]
      rfl

/-- C2 witness: concrete instances of the amended claim — a header without
`group` plus one row aborts with `KeyError group`, and the small well-formed
input runs without error. -/
theorem C2_witness :
    run_generator (some ([chars "ipa-name"] :: [[chars "x"]]))
        = Except.error (PyErr.keyError (chars "group"))
    ∧ is_ok (run_generator (some csv_ok)) = true :=
  ⟨C2_load_error_behavior.2.1 [chars "ipa-name"] [[chars "x"]]
      (by decide) (by decide),
   C2_load_error_behavior.2.2.1 csv_ok (by decide)⟩

end TyIPA
